import Mathlib

/-!
Verification of the `adaptd` Go middleware library (package adaptd) against its
natural-language specification.

The embedding is shallow: a Go `http.Handler`'s `ServeHTTP(w, r)` is modelled as
a state transformer `Request → World → World`, where `World` carries everything
a handler can observe or mutate through its `http.ResponseWriter` plus the
process-wide side channels the adapters use (the `log` package sink and the
prometheus counter registry).  A Go `Adapter` (`func(http.Handler) http.Handler`)
is a `Handler → Handler`.  Each definition below is translated directly from the
corresponding Go function in the repository sources.
-/

/-- Models `crypto/tls.ConnectionState` as far as the library reads it:
`EnsureHTTPS` only consults `r.TLS.HandshakeComplete`. -/
structure TLSState where
  handshakeComplete : Bool
deriving DecidableEq, Repr

/-- Models the parts of Go's `*http.Request` that the library reads:
`r.Method`, `r.URL.Path`, `r.URL.RawQuery`, `r.Host`, `r.Header` and `r.TLS`
(`none` models a nil `r.TLS`, i.e. a plaintext connection). -/
structure Request where
  method : String
  path : String
  rawQuery : String
  host : String
  headers : List (String × String)
  tls : Option TLSState
deriving DecidableEq, Repr

/-- Label triples `(endpoint, code, method)` used by the prometheus counter. -/
abbrev LabelTriple := String × String × String

/-- The mutable world a handler acts on: the response (ordered list of
`WriteHeader` calls, response headers, body writes) together with the
process-wide `log` sink and the prometheus counter registry, modelled as an
association list from label triples to counts. -/
structure World where
  statusWrites : List Nat
  headers : List (String × String)
  body : List String
  log : List String
  counters : List (LabelTriple × Nat)
deriving DecidableEq, Repr

/-- The empty world: fresh response, empty log, no counters registered. -/
def World.empty : World := ⟨[], [], [], [], []⟩

/-- Models Go's `http.Header.Get`: the first value stored under the key, or the
empty string when the key is absent. -/
def headerGet (hs : List (String × String)) (k : String) : String :=
  match hs.find? (fun p => p.1 = k) with
  | some p => p.2
  | none => ""

/-- Models `w.Header().Set(k, v)`: replace the value under `k`, or append. -/
def setAssoc (hs : List (String × String)) (k v : String) : List (String × String) :=
  match hs with
  | [] => [(k, v)]
  | (k', v') :: rest => if k' = k then (k, v) :: rest else (k', v') :: setAssoc rest k v

/-- Models `w.Header().Set` on the world. -/
def World.setHeader (w : World) (k v : String) : World :=
  { w with headers := setAssoc w.headers k v }

/-- Models `w.WriteHeader(code)`: the call is recorded in order; the effective
response status is the first recorded write (Go's net/http ignores later ones). -/
def World.writeHeader (w : World) (code : Nat) : World :=
  { w with statusWrites := w.statusWrites ++ [code] }

/-- Models a body write through the response writer. -/
def World.writeBody (w : World) (chunk : String) : World :=
  { w with body := w.body ++ [chunk] }

/-- Models a line emitted through the process-wide `log` package sink. -/
def World.logLine (w : World) (line : String) : World :=
  { w with log := w.log ++ [line] }

/-- A Go `http.Handler`: `ServeHTTP` consumes the request and transforms the
world through its response writer and the process-wide side channels. -/
def Handler : Type := Request → World → World

/-- A Go `adaptd.Adapter`: `func(http.Handler) http.Handler`. -/
def Adapter : Type := Handler → Handler

/-- A Go `adaptd.HandlerChecker`: `func(http.ResponseWriter, *http.Request) bool`.
Since the checker receives the live response writer it may mutate the world, so
its denotation returns the updated world alongside the boolean. -/
def HandlerChecker : Type := World → Request → World × Bool

/-- Translated from `adapter.go`:

```go
func Adapt(h http.Handler, adapters ...Adapter) http.Handler {
    for i := len(adapters) - 1; i >= 0; i-- {
        h = adapters[i](h)
    }
    return h
}
```

The loop walks the variadic slice from the last index down to index 0,
rebinding `h` each time; that is a left fold over the reversed list. -/
def Adapt (h : Handler) (adapters : List Adapter) : Handler :=
  adapters.reverse.foldl (fun acc a => a acc) h

/-- The nested composition `a0 (a1 ( … (an-1 base) … ))` that the spec says
`Adapt` must equal: the first adapter is the outermost wrapper. -/
def nestedCompose (adapters : List Adapter) (h : Handler) : Handler :=
  match adapters with
  | [] => h
  | a :: rest => a (nestedCompose rest h)

/-- An observing adapter in the style of the library's `Notify`: it logs an
entry event, delegates, then logs an exit event.  Used to make the chain-order
law of the spec observable. -/
def probeAdapter (name : String) : Adapter :=
  fun h r w => (h r (w.logLine ("enter " ++ name))).logLine ("exit " ++ name)

/-- A base handler that records a single side effect in the log. -/
def probeBase (name : String) : Handler :=
  fun _ w => w.logLine name

theorem adapt_cons (h : Handler) (a : Adapter) (rest : List Adapter) :
    Adapt h (a :: rest) = a (Adapt h rest) := by
  simp [Adapt, List.foldl_append]

theorem adapt_eq_nestedCompose (h : Handler) (as : List Adapter) :
    Adapt h as = nestedCompose as h := by
  induction as with
  | nil => rfl
  | cons a rest ih => rw [adapt_cons, ih]; rfl

theorem probe_chain_log (names : List String) (b : String) (r : Request) (w : World) :
    (Adapt (probeBase b) (names.map probeAdapter) r w).log
      = w.log ++ names.map (fun n => "enter " ++ n) ++ [b]
          ++ (names.reverse.map (fun n => "exit " ++ n)) := by
  induction names generalizing w with
  | nil => simp [Adapt, probeBase, World.logLine]
  | cons n rest ih =>
      rw [List.map_cons, adapt_cons]
      simp only [probeAdapter, World.logLine]
      rw [ih]
      simp [World.logLine]

/-- C1: `Adapt(b, a0, …, an-1)` equals the nested composition
`a0(a1(…(an-1(b))…))` — the first adapter in the caller-supplied order is the
outermost wrapper, built by folding from the last adapter toward the first —
and on a request that every adapter delegates, side effects are observed in
order `a0, a1, …, an-1, b` on the way in and in reverse order on the way out
(shown with observing adapters that log an entry event, delegate, and log an
exit event). -/
theorem adapt_chain_order_law (h : Handler) (as : List Adapter)
    (names : List String) (b : String) (r : Request) (w : World) :
    Adapt h as = nestedCompose as h ∧
    (Adapt (probeBase b) (names.map probeAdapter) r w).log
      = w.log ++ names.map (fun n => "enter " ++ n) ++ [b]
          ++ (names.reverse.map (fun n => "exit " ++ n)) :=
  ⟨adapt_eq_nestedCompose h as, probe_chain_log names b r w⟩

/-- C2: `Adapt` applied to an empty adapter sequence returns a handler whose
behavior on every request and every world is identical to the base handler's
(identity law of composition); in fact the returned handler is the base handler
itself. -/
theorem adapt_empty_identity (h : Handler) (r : Request) (w : World) :
    Adapt h [] = h ∧ Adapt h [] r w = h r w :=
  ⟨rfl, rfl⟩

/-- Models `http.Redirect(w, r, target, code)` for an absolute target URL: it
sets the `Location` response header to the target and writes the status code. -/
def httpRedirect (target : String) (code : Nat) (w : World) : World :=
  (w.setHeader "Location" target).writeHeader code

/-- Models `http.Error(w, msg, code)`: sets the plain-text content type headers,
writes the status code and prints the message to the body. -/
def httpError (msg : String) (code : Nat) (w : World) : World :=
  ((((w.setHeader "Content-Type" "text/plain; charset=utf-8").setHeader
      "X-Content-Type-Options" "nosniff").writeHeader code).writeBody (msg ++ "\n"))

/-- Models `http.NotFound(w, r)`, which is `http.Error(w, "404 page not found", 404)`. -/
def notFound : Handler :=
  fun _ w => httpError "404 page not found" 404 w

/-- Translated from the repository source:

```go
func isHTTPS(r *http.Request, allowXForwardedProto bool) bool {
    return (r.TLS != nil && r.TLS.HandshakeComplete) ||
        (allowXForwardedProto && r.Header.Get("X-Forwarded-Proto") == "https")
}
``` -/
def isHTTPS (r : Request) (allowXForwardedProto : Bool) : Bool :=
  (match r.tls with
   | some t => t.handshakeComplete
   | none => false)
  || (allowXForwardedProto && (headerGet r.headers "X-Forwarded-Proto" = "https"))

/-- The redirect target built by `EnsureHTTPS` and `HTTPSRedirect`:
`"https://" + r.Host + r.URL.Path`, with `"?" + r.URL.RawQuery` appended when
`len(r.URL.RawQuery) > 0`. -/
def httpsTarget (r : Request) : String :=
  let target := "https://" ++ r.host ++ r.path
  if r.rawQuery.length > 0 then target ++ "?" ++ r.rawQuery else target

/-- Translated from the repository source:

```go
func EnsureHTTPS(allowXForwardedProto bool) Adapter {
    return func(h http.Handler) http.Handler {
        return http.HandlerFunc(func(w http.ResponseWriter, r *http.Request) {
            if !isHTTPS(r, allowXForwardedProto) {
                target := "https://" + r.Host + r.URL.Path
                if len(r.URL.RawQuery) > 0 {
                    target += "?" + r.URL.RawQuery
                }
                log.Printf("redirect to: %s", target)
                http.Redirect(w, r, target, http.StatusTemporaryRedirect)
                return
            }
            h.ServeHTTP(w, r)
        })
    }
}
``` -/
def EnsureHTTPS (allowXForwardedProto : Bool) : Adapter :=
  fun h r w =>
    if !(isHTTPS r allowXForwardedProto) then
      httpRedirect (httpsTarget r) 307 (w.logLine ("redirect to: " ++ httpsTarget r))
    else h r w

/-- Translated from the repository source (the standalone handler):

```go
func HTTPSRedirect() http.Handler {
    return http.HandlerFunc(func(w http.ResponseWriter, r *http.Request) {
        target := "https://" + r.Host + r.URL.Path
        if len(r.URL.RawQuery) > 0 {
            target += "?" + r.URL.RawQuery
        }
        log.Printf("redirect to: %s", target)
        http.Redirect(w, r, target, http.StatusTemporaryRedirect)
    })
}
``` -/
def HTTPSRedirect : Handler :=
  fun r w =>
    httpRedirect (httpsTarget r) 307 (w.logLine ("redirect to: " ++ httpsTarget r))

theorem headerGet_setAssoc_self (hs : List (String × String)) (k v : String) :
    headerGet (setAssoc hs k v) k = v := by
  induction hs with
  | nil => simp [setAssoc, headerGet]
  | cons p rest ih =>
      by_cases hk : p.1 = k
      · simp [setAssoc, hk, headerGet]
      · simpa [setAssoc, hk, headerGet, List.find?] using ih

/-- C3: the handler produced by `EnsureHTTPS(flag)` delegates to the primary
handler exactly when the request is secure, where secure means the direct TLS
handshake completed or (`flag` and the `X-Forwarded-Proto` header equals
`"https"`); on an insecure request it does not delegate (the outcome is the
same for every primary handler) and instead writes a single 307 status with a
`Location` header of `https://<host><path>`, with `?<query>` appended exactly
when the raw query string is non-empty. -/
theorem ensureHTTPS_spec (allow : Bool) (h : Handler) (r : Request) (w : World) :
    (isHTTPS r allow
      = ((r.tls.map TLSState.handshakeComplete).getD false
          || (allow && (headerGet r.headers "X-Forwarded-Proto" = "https")))) ∧
    (isHTTPS r allow = true → EnsureHTTPS allow h r w = h r w) ∧
    (isHTTPS r allow = false →
      (∀ h' : Handler, EnsureHTTPS allow h r w = EnsureHTTPS allow h' r w) ∧
      (EnsureHTTPS allow h r w).statusWrites = w.statusWrites ++ [307] ∧
      headerGet (EnsureHTTPS allow h r w).headers "Location"
        = "https://" ++ r.host ++ r.path
            ++ (if r.rawQuery = "" then "" else "?" ++ r.rawQuery)) := by
  refine ⟨?_, ?_, ?_⟩
  · rcases r with ⟨m, p, q, ho, hs, tls⟩
    cases tls <;> simp [isHTTPS]
  · intro hs; simp [EnsureHTTPS, hs]
  · intro hs
    refine ⟨fun h' => by simp [EnsureHTTPS, hs], ?_, ?_⟩
    · simp [EnsureHTTPS, hs, httpRedirect, World.writeHeader, World.setHeader,
        World.logLine]
    · have htarget : httpsTarget r
          = "https://" ++ r.host ++ r.path
              ++ (if r.rawQuery = "" then "" else "?" ++ r.rawQuery) := by
        by_cases hq : r.rawQuery = ""
        · simp [httpsTarget, hq]
        · have : r.rawQuery.length > 0 := by
            cases hqq : r.rawQuery with
            | mk data =>
                cases data with
                | nil => exact absurd hqq (by simpa using hq)
                | cons c cs => simp [String.length]
          simp [httpsTarget, hq, this, String.append_assoc]
      simp [EnsureHTTPS, hs, httpRedirect, World.writeHeader, World.setHeader,
        World.logLine, headerGet_setAssoc_self, htarget]

/-- Closed witness for `ensureHTTPS_spec`: on a concrete plaintext request with
a non-empty query, `EnsureHTTPS false` writes exactly one 307 status and a
`Location` header of `https://example.com/login?a=1`; on the same request with
an `X-Forwarded-Proto: https` header, `EnsureHTTPS true` delegates. -/
theorem ensureHTTPS_spec_witness :
    (EnsureHTTPS false (probeBase "main")
        ⟨"GET", "/login", "a=1", "example.com", [], none⟩ World.empty).statusWrites
      = [307] ∧
    headerGet (EnsureHTTPS false (probeBase "main")
        ⟨"GET", "/login", "a=1", "example.com", [], none⟩ World.empty).headers "Location"
      = "https://example.com/login?a=1" ∧
    EnsureHTTPS true (probeBase "main")
        ⟨"GET", "/login", "a=1", "example.com", [("X-Forwarded-Proto", "https")], none⟩
        World.empty
      = probeBase "main"
          ⟨"GET", "/login", "a=1", "example.com", [("X-Forwarded-Proto", "https")], none⟩
          World.empty := by
  refine ⟨?_, ?_, ?_⟩
  · exact ((ensureHTTPS_spec false (probeBase "main")
      ⟨"GET", "/login", "a=1", "example.com", [], none⟩ World.empty).2.2
      (by decide)).2.1
  · exact ((ensureHTTPS_spec false (probeBase "main")
      ⟨"GET", "/login", "a=1", "example.com", [], none⟩ World.empty).2.2
      (by decide)).2.2
  · exact (ensureHTTPS_spec true (probeBase "main")
      ⟨"GET", "/login", "a=1", "example.com", [("X-Forwarded-Proto", "https")], none⟩
      World.empty).2.1 (by decide)

/-- C4: the standalone handler `HTTPSRedirect` unconditionally writes a single
307 temporary-redirect status whose `Location` target has scheme `https` and
the same host, path and query string as the incoming request, the query
component present exactly when the raw query is non-empty; being a standalone
handler (not an adapter) it wraps no other handler, and its whole effect is the
log line and the redirect write. -/
theorem httpsRedirect_spec (r : Request) (w : World) :
    HTTPSRedirect r w
      = httpRedirect (httpsTarget r) 307 (w.logLine ("redirect to: " ++ httpsTarget r)) ∧
    (HTTPSRedirect r w).statusWrites = w.statusWrites ++ [307] ∧
    headerGet (HTTPSRedirect r w).headers "Location"
      = "https://" ++ r.host ++ r.path
          ++ (if r.rawQuery = "" then "" else "?" ++ r.rawQuery) := by
  have htarget : httpsTarget r
      = "https://" ++ r.host ++ r.path
          ++ (if r.rawQuery = "" then "" else "?" ++ r.rawQuery) := by
    by_cases hq : r.rawQuery = ""
    · simp [httpsTarget, hq]
    · have : r.rawQuery.length > 0 := by
        cases hqq : r.rawQuery with
        | mk data =>
            cases data with
            | nil => exact absurd hqq (by simpa using hq)
            | cons c cs => simp [String.length]
      simp [httpsTarget, hq, this, String.append_assoc]
  refine ⟨rfl, ?_, ?_⟩
  · simp [HTTPSRedirect, httpRedirect, World.writeHeader, World.setHeader, World.logLine]
  · simp [HTTPSRedirect, httpRedirect, World.writeHeader, World.setHeader, World.logLine,
      headerGet_setAssoc_self, htarget]

/-- Translated from the repository source:

```go
func GetAndOtherRequest(other http.Handler, method string) Adapter {
    return func(h http.Handler) http.Handler {
        return http.HandlerFunc(func(w http.ResponseWriter, r *http.Request) {
            switch r.Method {
            case method:
                other.ServeHTTP(w, r)
            case http.MethodGet:
                h.ServeHTTP(w, r)
            default:
                http.Error(w, "Request method not allowed", http.StatusMethodNotAllowed)
            }
        })
    }
}
```

A Go `switch` tries its cases in order, so the `method` case shadows the
`http.MethodGet` case when the two strings coincide. -/
def GetAndOtherRequest (other : Handler) (method : String) : Adapter :=
  fun h r w =>
    if r.method = method then other r w
    else if r.method = "GET" then h r w
    else httpError "Request method not allowed" 405 w

/-- Translated from the repository source (the variant with a caller-supplied
not-found handler):

```go
func DisallowLongerPaths(path string, notFoundHandler http.Handler) Adapter {
    return func(h http.Handler) http.Handler {
        return http.HandlerFunc(func(w http.ResponseWriter, r *http.Request) {
            if r.URL.Path != path {
                log.Printf("Handler expects URL %v but received a request at %v\n", path, r.URL.Path)
                notFoundHandler.ServeHTTP(w, r)
                return
            }
            h.ServeHTTP(w, r)
        })
    }
}
``` -/
def DisallowLongerPaths (path : String) (notFoundHandler : Handler) : Adapter :=
  fun h r w =>
    if r.path ≠ path then
      notFoundHandler r
        (w.logLine ("Handler expects URL " ++ path ++ " but received a request at " ++ r.path))
    else h r w

/-- Translated from the repository source (the direct-conditional variant):

```go
func OnCheck(f func(http.ResponseWriter, *http.Request) bool, falseHandler http.Handler, logOnFalse string) Adapter {
    return func(h http.Handler) http.Handler {
        return http.HandlerFunc(func(w http.ResponseWriter, r *http.Request) {
            if !f(w, r) {
                log.Println(logOnFalse)
                falseHandler.ServeHTTP(w, r)
            } else {
                h.ServeHTTP(w, r)
            }
        })
    }
}
```

The false branch is a direct conditional; the historical variant that reached
the same branch through panic/recover is behaviorally identical and is not
modelled as exception-based control flow. -/
def OnCheck (f : HandlerChecker) (falseHandler : Handler) (logOnFalse : String) : Adapter :=
  fun h r w =>
    let res := f w r
    if !res.2 then falseHandler r (res.1.logLine logOnFalse)
    else h r res.1

/-- Translated from the repository source (the richer variant whose generator
also receives the request):

```go
func AddCookieWithFunc(name string, tg func(http.ResponseWriter, *http.Request) error) Adapter {
    return func(h http.Handler) http.Handler {
        return http.HandlerFunc(func(w http.ResponseWriter, r *http.Request) {
            tg(w, r)
            h.ServeHTTP(w, r)
        })
    }
}
```

The generator writes the cookie through the response writer and may return an
error; its denotation therefore returns the updated world together with the
optional error value, which the adapter discards. -/
def AddCookieWithFunc (name : String) (tg : World → Request → World × Option String) : Adapter :=
  fun h r w => h r (tg w r).1

/-- C5: the handler produced by `OnCheck(f, elseHandler, logMessage)` evaluates
`f` on the response sink and request; if `f` returns true it delegates to the
primary handler on the world `f` left behind, and the outcome is the same for
every `elseHandler`; if `f` returns false it emits the log message and
delegates to `elseHandler`, and the outcome is the same for every primary
handler — so exactly one of the two handlers runs per request, selected by a
direct conditional on the boolean. -/
theorem onCheck_spec (f : HandlerChecker) (elseH h : Handler) (msg : String)
    (r : Request) (w : World) :
    OnCheck f elseH msg h r w
      = (if (f w r).2 then h r (f w r).1 else elseH r (((f w r).1).logLine msg)) ∧
    ((f w r).2 = true →
      ∀ elseH' : Handler, OnCheck f elseH msg h r w = OnCheck f elseH' msg h r w) ∧
    ((f w r).2 = false →
      (∀ h' : Handler, OnCheck f elseH msg h r w = OnCheck f elseH msg h' r w) ∧
      OnCheck f elseH msg h r w = elseH r (((f w r).1).logLine msg)) := by
  refine ⟨?_, ?_, ?_⟩
  · by_cases hb : (f w r).2 <;> simp [OnCheck, hb]
  · intro hb elseH'; simp [OnCheck, hb]
  · intro hb
    exact ⟨fun h' => by simp [OnCheck, hb], by simp [OnCheck, hb]⟩

/-- Closed witness for `onCheck_spec`: with a concrete checker that returns
false without touching the world, the else-handler runs on the world carrying
the emitted log message, and the outcome is independent of the primary handler. -/
theorem onCheck_spec_witness :
    (∀ h' : Handler,
      OnCheck (fun w' _ => (w', false)) (probeBase "else") "check failed" (probeBase "main")
          ⟨"GET", "/", "", "example.com", [], none⟩ World.empty
        = OnCheck (fun w' _ => (w', false)) (probeBase "else") "check failed" h'
          ⟨"GET", "/", "", "example.com", [], none⟩ World.empty) ∧
    OnCheck (fun w' _ => (w', false)) (probeBase "else") "check failed" (probeBase "main")
        ⟨"GET", "/", "", "example.com", [], none⟩ World.empty
      = probeBase "else" ⟨"GET", "/", "", "example.com", [], none⟩
          (World.empty.logLine "check failed") :=
  (onCheck_spec (fun w' _ => (w', false)) (probeBase "else") (probeBase "main")
    "check failed" ⟨"GET", "/", "", "example.com", [], none⟩ World.empty).2.2 rfl

/-- C6: the handler produced by `GetAndOtherRequest(otherHandler, m)`
dispatches three ways in order: a request whose method equals `m` goes to
`otherHandler`; otherwise a GET request goes to the primary handler; any other
method gets a single 405 status write and neither handler runs (the outcome is
the same for every choice of both handlers). -/
theorem getAndOtherRequest_spec (other h : Handler) (m : String) (r : Request) (w : World) :
    GetAndOtherRequest other m h r w
      = (if r.method = m then other r w
         else if r.method = "GET" then h r w
         else httpError "Request method not allowed" 405 w) ∧
    (r.method ≠ m → r.method ≠ "GET" →
      (GetAndOtherRequest other m h r w).statusWrites = w.statusWrites ++ [405] ∧
      ∀ other' h' : Handler,
        GetAndOtherRequest other m h r w = GetAndOtherRequest other' m h' r w) := by
  refine ⟨rfl, fun hm hg => ⟨?_, fun other' h' => ?_⟩⟩
  · simp [GetAndOtherRequest, hm, hg, httpError, World.writeHeader, World.setHeader,
      World.writeBody]
  · simp [GetAndOtherRequest, hm, hg]

/-- Closed witness for `getAndOtherRequest_spec`: a concrete PUT request against
`GetAndOtherRequest(other, "POST")` writes exactly the single status 405. -/
theorem getAndOtherRequest_spec_witness :
    (GetAndOtherRequest (probeBase "other") "POST" (probeBase "main")
        ⟨"PUT", "/", "", "example.com", [], none⟩ World.empty).statusWrites = [405] :=
  ((getAndOtherRequest_spec (probeBase "other") (probeBase "main") "POST"
      ⟨"PUT", "/", "", "example.com", [], none⟩ World.empty).2
    (by decide) (by decide)).1

/-- C7: the handler produced by `DisallowLongerPaths(exactPath, notFoundHandler)`
delegates to the primary handler exactly when the request path string-equals
`exactPath`; on every other path it logs the expected and received paths and
delegates to `notFoundHandler`, never invoking the primary handler (the outcome
is the same for every primary handler); comparison is exact string equality,
and both the standard not-found responder (yielding a 404 status) and a
caller-supplied override are supportable as `notFoundHandler`. -/
theorem disallowLongerPaths_spec (path : String) (nf h : Handler) (r : Request) (w : World) :
    DisallowLongerPaths path nf h r w
      = (if r.path = path then h r w
         else nf r (w.logLine
            ("Handler expects URL " ++ path ++ " but received a request at " ++ r.path))) ∧
    (r.path ≠ path →
      (∀ h' : Handler,
        DisallowLongerPaths path nf h r w = DisallowLongerPaths path nf h' r w) ∧
      (DisallowLongerPaths path notFound h r w).statusWrites
        = w.statusWrites ++ [404]) := by
  refine ⟨?_, fun hp => ⟨fun h' => ?_, ?_⟩⟩
  · by_cases hp : r.path = path <;> simp [DisallowLongerPaths, hp]
  · simp [DisallowLongerPaths, hp]
  · simp [DisallowLongerPaths, hp, notFound, httpError, World.writeHeader,
      World.setHeader, World.writeBody, World.logLine]

/-- Closed witness for `disallowLongerPaths_spec`: with exact path `"/login"`,
a request at `"/login/extra"` is diverted — with the standard not-found
responder the response status is 404 — and the diversion does not depend on the
primary handler. -/
theorem disallowLongerPaths_spec_witness :
    (∀ h' : Handler,
      DisallowLongerPaths "/login" notFound (probeBase "main")
          ⟨"GET", "/login/extra", "", "example.com", [], none⟩ World.empty
        = DisallowLongerPaths "/login" notFound h'
          ⟨"GET", "/login/extra", "", "example.com", [], none⟩ World.empty) ∧
    (DisallowLongerPaths "/login" notFound (probeBase "main")
        ⟨"GET", "/login/extra", "", "example.com", [], none⟩ World.empty).statusWrites
      = [404] :=
  ⟨((disallowLongerPaths_spec "/login" notFound (probeBase "main")
      ⟨"GET", "/login/extra", "", "example.com", [], none⟩ World.empty).2
      (by decide)).1,
   ((disallowLongerPaths_spec "/login" notFound (probeBase "main")
      ⟨"GET", "/login/extra", "", "example.com", [], none⟩ World.empty).2
      (by decide)).2⟩

/-- C9: the handler produced by `AddCookieWithFunc` invokes the generator on the
response sink and request and then always delegates to the primary handler on
the world the generator produced; the failure value the generator reports is
discarded — two generators with the same effect on the world but different
failure reports yield identical outcomes, so the failure never surfaces, never
alters the response, and never prevents delegation. -/
theorem addCookieWithFunc_spec (name : String) (g : World → Request → World)
    (e₁ e₂ : Option String) (h : Handler) (r : Request) (w : World) :
    AddCookieWithFunc name (fun w' r' => (g w' r', e₁)) h r w = h r (g w r) ∧
    AddCookieWithFunc name (fun w' r' => (g w' r', e₁)) h r w
      = AddCookieWithFunc name (fun w' r' => (g w' r', e₂)) h r w :=
  ⟨rfl, rfl⟩

/-- C10: when `GetAndOtherRequest` is configured with method `"GET"`, the
`method` case of the switch shadows the GET case, so every GET request runs the
`otherHandler` supplied at construction and the primary handler given to the
returned adapter is never invoked for any request (the composed handler is the
same function for every primary handler). -/
theorem getAndOtherRequest_get_shadows (other h₁ h₂ : Handler) (r : Request) (w : World) :
    GetAndOtherRequest other "GET" h₁ r w = GetAndOtherRequest other "GET" h₂ r w ∧
    GetAndOtherRequest other "GET" h₁ { r with method := "GET" } w
      = other { r with method := "GET" } w := by
  constructor
  · by_cases hm : r.method = "GET" <;> simp [GetAndOtherRequest, hm]
  · simp [GetAndOtherRequest]

/-- Models prometheus `CounterVec.WithLabelValues(...).Inc()`: bump the count
stored under the label triple, registering it at zero first if absent. -/
def bumpCounter (cs : List (LabelTriple × Nat)) (k : LabelTriple) : List (LabelTriple × Nat) :=
  match cs with
  | [] => [(k, 1)]
  | (k', n) :: rest => if k' = k then (k', n + 1) :: rest else (k', n) :: bumpCounter rest k

/-- Increment the process-wide counter for the label triple. -/
def World.incCounter (w : World) (k : LabelTriple) : World :=
  { w with counters := bumpCounter w.counters k }

/-- The current value of the counter for a label triple (zero when the triple
was never incremented). -/
def counterVal (w : World) (k : LabelTriple) : Nat :=
  match w.counters.find? (fun p => p.1 = k) with
  | some p => p.2
  | none => 0

/-- Modelled from the spec: the `statusRecorder` response-sink shim used by
`prometheus.go` (`sr := &statusRecorder{w, 200}`), whose Go type definition is
not among the provided sources — only its uses are.  Per the spec it records
the first status code the inner handler writes, defaulting to 200 when the
inner handler never explicitly sets one, even if the inner handler writes
headers multiple times.  Denotationally, the status it records for an inner
run from `before` to `after` is the first status write the run appended. -/
def recordedStatus (before after : World) : Nat :=
  ((after.statusWrites.drop before.statusWrites.length).head?).getD 200

/-- Translated from `prometheus.go` (the collector registration happens once at
construction and is outside the per-request behavior modelled here):

```go
return func(h http.Handler) http.Handler {
    return http.HandlerFunc(func(w http.ResponseWriter, r *http.Request) {
        sr := &statusRecorder{w, 200}
        h.ServeHTTP(sr, r)
        httpRequests.WithLabelValues(r.URL.Path, strconv.Itoa(sr.status), r.Method).Inc()
    })
}
``` -/
def CountHTTPResponses : Adapter :=
  fun h r w =>
    let wAfter := h r w
    wAfter.incCounter (r.path, toString (recordedStatus w wAfter), r.method)

/-- N sequential requests through the same handler, threading the world. -/
def iterHandler (g : Handler) (r : Request) : Nat → World → World
  | 0, w => w
  | n + 1, w => iterHandler g r n (g r w)

theorem counterVal_bumpCounter_self (cs : List (LabelTriple × Nat)) (k : LabelTriple) :
    counterVal ⟨[], [], [], [], bumpCounter cs k⟩ k
      = counterVal ⟨[], [], [], [], cs⟩ k + 1 := by
  induction cs with
  | nil => simp [bumpCounter, counterVal]
  | cons p rest ih =>
      by_cases hk : p.1 = k
      · simp [bumpCounter, hk, counterVal]
      · simpa [bumpCounter, hk, counterVal, List.find?] using ih

theorem counterVal_bumpCounter_other (cs : List (LabelTriple × Nat)) (k k' : LabelTriple)
    (hne : k' ≠ k) :
    counterVal ⟨[], [], [], [], bumpCounter cs k⟩ k'
      = counterVal ⟨[], [], [], [], cs⟩ k' := by
  induction cs with
  | nil => simp [bumpCounter, counterVal, List.find?, hne, Ne.symm hne]
  | cons p rest ih =>
      by_cases hk : p.1 = k
      · have hpk' : ¬p.1 = k' := by rw [hk]; exact fun h => hne h.symm
        have hkk' : ¬k = k' := fun h => hne h.symm
        simp [bumpCounter, hk, counterVal, List.find?, hpk', hkk']
      · by_cases hk' : p.1 = k'
        · simp [bumpCounter, hk, counterVal, List.find?, hk', hne]
        · simpa [bumpCounter, hk, counterVal, List.find?, hk'] using ih

theorem counterVal_eq_of_counters (w w' : World) (k : LabelTriple)
    (hc : w.counters = w'.counters) : counterVal w k = counterVal w' k := by
  simp [counterVal, hc]

theorem counterVal_incCounter_self (w : World) (k : LabelTriple) :
    counterVal (w.incCounter k) k = counterVal w k + 1 := by
  have h1 := counterVal_bumpCounter_self w.counters k
  have h2 : counterVal (w.incCounter k) k
      = counterVal ⟨[], [], [], [], bumpCounter w.counters k⟩ k :=
    counterVal_eq_of_counters _ _ _ rfl
  have h3 : counterVal w k = counterVal ⟨[], [], [], [], w.counters⟩ k :=
    counterVal_eq_of_counters _ _ _ rfl
  rw [h2, h3, h1]

theorem counterVal_incCounter_other (w : World) (k k' : LabelTriple) (hne : k' ≠ k) :
    counterVal (w.incCounter k) k' = counterVal w k' := by
  have h1 := counterVal_bumpCounter_other w.counters k k' hne
  have h2 : counterVal (w.incCounter k) k'
      = counterVal ⟨[], [], [], [], bumpCounter w.counters k⟩ k' :=
    counterVal_eq_of_counters _ _ _ rfl
  have h3 : counterVal w k' = counterVal ⟨[], [], [], [], w.counters⟩ k' :=
    counterVal_eq_of_counters _ _ _ rfl
  rw [h2, h3, h1]

/-- C8: `CountHTTPResponses` runs the inner handler under the first-write-wins
status-recording shim and then increments the process-wide counter for exactly
the label triple (request path, recorded status, request method), the recorded
status defaulting to 200 when the inner handler writes none; consequently, for
an inner handler that does not itself touch the counters and whose recorded
status on this request is always `s`, after `n` requests the counter for
(path, `s`, method) increases by exactly `n` while every other label triple is
unchanged. -/
theorem countHTTPResponses_spec (h : Handler) (r : Request) (w : World) (n s : Nat)
    (hcnt : ∀ w' : World, ((h r w').counters = w'.counters))
    (hs : ∀ w' : World, recordedStatus w' (h r w') = s) :
    CountHTTPResponses h r w
      = (h r w).incCounter (r.path, toString (recordedStatus w (h r w)), r.method) ∧
    counterVal (iterHandler (CountHTTPResponses h) r n w)
        (r.path, toString s, r.method)
      = counterVal w (r.path, toString s, r.method) + n ∧
    (∀ k : LabelTriple, k ≠ (r.path, toString s, r.method) →
      counterVal (iterHandler (CountHTTPResponses h) r n w) k = counterVal w k) := by
  have step : ∀ w' : World, ∀ k : LabelTriple,
      counterVal (CountHTTPResponses h r w') k
        = if k = (r.path, toString s, r.method)
          then counterVal w' k + 1 else counterVal w' k := by
    intro w' k
    have hrun : counterVal (h r w') k = counterVal w' k :=
      counterVal_eq_of_counters _ _ _ (hcnt w')
    have hcc : CountHTTPResponses h r w'
        = (h r w').incCounter (r.path, toString s, r.method) := by
      simp [CountHTTPResponses, hs w']
    by_cases hk : k = (r.path, toString s, r.method)
    · subst hk
      rw [hcc, if_pos rfl, counterVal_incCounter_self, hrun]
    · rw [hcc, if_neg hk, counterVal_incCounter_other _ _ _ hk, hrun]
  refine ⟨rfl, ?_, ?_⟩
  · induction n generalizing w with
    | zero => rfl
    | succ m ih =>
        have : iterHandler (CountHTTPResponses h) r (m + 1) w
            = iterHandler (CountHTTPResponses h) r m (CountHTTPResponses h r w) := rfl
        rw [this, ih (CountHTTPResponses h r w), step w, if_pos rfl]
        omega
  · intro k hk
    induction n generalizing w with
    | zero => rfl
    | succ m ih =>
        have : iterHandler (CountHTTPResponses h) r (m + 1) w
            = iterHandler (CountHTTPResponses h) r m (CountHTTPResponses h r w) := rfl
        rw [this, ih (CountHTTPResponses h r w), step w, if_neg hk]

/-- A concrete inner handler that always writes status 404 once and touches
nothing else. -/
def writes404 : Handler :=
  fun _ w => w.writeHeader 404

/-- Closed witness for `countHTTPResponses_spec`: three requests to `/p` with
method GET through `CountHTTPResponses` around a handler that always writes
404 raise the counter for `("/p", "404", "GET")` from 0 by exactly 3, and
leave the triple `("/q", "404", "GET")` at its old value. -/
theorem countHTTPResponses_spec_witness :
    counterVal (iterHandler (CountHTTPResponses writes404)
        ⟨"GET", "/p", "", "example.com", [], none⟩ 3 World.empty)
        ("/p", "404", "GET")
      = counterVal World.empty ("/p", "404", "GET") + 3 ∧
    counterVal (iterHandler (CountHTTPResponses writes404)
        ⟨"GET", "/p", "", "example.com", [], none⟩ 3 World.empty)
        ("/q", "404", "GET")
      = counterVal World.empty ("/q", "404", "GET") := by
  have hmain := countHTTPResponses_spec writes404
    ⟨"GET", "/p", "", "example.com", [], none⟩ World.empty 3 404
    (fun w' => rfl)
    (fun w' => by
      simp [recordedStatus, writes404, World.writeHeader, List.drop_left])
  exact ⟨hmain.2.1, hmain.2.2 ("/q", "404", "GET") (by decide)⟩
